import Mathlib

/-!
Verification of transmission-tui (a terminal client for the Transmission
torrent daemon) against its natural-language specification.

The Rust sources are shallowly embedded: each Lean definition mirrors one
function or data type of the repository.  Conventions used throughout:

* Rust `u32` is modelled as `Fin (2 ^ 32)`; the `as u32` truncating cast on a
  non-negative `i64` becomes `% 2 ^ 32`.
* Rust `i64` is modelled as `Int`; where the i64 range matters (string
  parsing) the bounds are checked explicitly.
* Rust `f64` fields (`seed_ratio_limit`) are modelled as `Rat`.  Every finite
  double is an exact rational, and none of the verified code paths perform
  float arithmetic on the value - it is only stored and compared - so the
  model is exact on finite doubles (NaN/infinity are outside the model).
* `serde_json::Value` is modelled by `JsonValue`; JSON objects are
  association lists.  The source's `Map` is a `BTreeMap` (sorted, unique
  keys); all verified properties access objects only through key lookup, so
  the difference in iteration order is irrelevant.
* Channels, HTTP transport and atomics are modelled by explicit state
  passing: the daemon's behaviour is an oracle parameter, and functions
  additionally return the trace of outbound requests they would issue.
-/

/-- Model of `serde_json::Value`.  `num` carries the `f64` payload of a JSON
number (modelled as `Rat`, exact on finite doubles); `int` carries integer
numbers. -/
inductive JsonValue where
  | null
  | bool (b : Bool)
  | int (n : Int)
  | num (q : Rat)
  | str (s : String)
  | arr (items : List JsonValue)
  | obj (fields : List (String × JsonValue))
deriving BEq, Repr

/-- Key lookup in a JSON object association list (model of `Map::get` /
`Value::get` on objects; keys are unique in the source's `BTreeMap`). -/
def lookupKey : List (String × JsonValue) → String → Option JsonValue
  | [], _ => none
  | kv :: rest, key => if kv.1 = key then some kv.2 else lookupKey rest key

/-- Model of `Value::get`: key lookup when the value is an object, else `None`. -/
def jsonGet (v : JsonValue) (key : String) : Option JsonValue :=
  match v with
  | .obj m => lookupKey m key
  | _ => none

def jsonAsStr : JsonValue → Option String
  | .str s => some s
  | _ => none

def jsonAsI64 : JsonValue → Option Int
  | .int n => if -(2 ^ 63) ≤ n ∧ n < 2 ^ 63 then some n else none
  | _ => none

/-- Model of deserializing an `f64` (serde accepts any JSON number). -/
def jsonAsF64 : JsonValue → Option Rat
  | .num q => some q
  | .int n => some (n : Rat)
  | _ => none

def jsonAsBool : JsonValue → Option Bool
  | .bool b => some b
  | _ => none

def JsonValue.isNull : JsonValue → Bool
  | .null => true
  | _ => false

/-- EncryptionMode (src/preferences.rs). -/
inductive EncryptionMode where
  | Prefer
  | Allow
  | Require
deriving DecidableEq, Repr

/-- EncryptionMode::rpc_value (src/preferences.rs lines 104-110). -/
def EncryptionMode.rpcValue : EncryptionMode → String
  | .Prefer => "preferred"
  | .Allow => "allowed"
  | .Require => "required"

/-- EncryptionMode::from_rpc (src/preferences.rs lines 112-119); the wildcard
arm maps every other string (including "preferred") to Prefer. -/
def EncryptionMode.fromRpc (value : String) : EncryptionMode :=
  match value with
  | "required" => .Require
  | "allowed" => .Allow
  | "tolerated" => .Allow
  | _ => .Prefer

/-- Rust u32. -/
abbrev U32 := Fin (2 ^ 32)

/-- DaemonPreferences (src/preferences.rs lines 4-24).  u32 fields are
`Fin (2 ^ 32)`; the f64 `seed_ratio_limit` is `Rat` (see header). -/
structure DaemonPreferences where
  download_dir : String
  start_when_added : Bool
  speed_limit_up_enabled : Bool
  speed_limit_up : U32
  speed_limit_down_enabled : Bool
  speed_limit_down : U32
  seed_ratio_limited : Bool
  seed_ratio_limit : Rat
  idle_seeding_limit_enabled : Bool
  idle_seeding_limit : U32
  peer_limit_per_torrent : U32
  peer_limit_global : U32
  encryption_mode : EncryptionMode
  pex_enabled : Bool
  dht_enabled : Bool
  lpd_enabled : Bool
  blocklist_enabled : Bool
  blocklist_url : Option String
deriving DecidableEq, Repr

/-- DaemonPreferences::to_rpc_map (src/preferences.rs lines 27-84): the
eighteen insertions, in source order.  Keys are distinct, so the list models
the `BTreeMap` faithfully for lookup. -/
def DaemonPreferences.toRpcMap (p : DaemonPreferences) : List (String × JsonValue) :=
  [("download_dir", .str p.download_dir),
   ("start_added_torrents", .bool p.start_when_added),
   ("speed_limit_up_enabled", .bool p.speed_limit_up_enabled),
   ("speed_limit_up", .int (p.speed_limit_up.val : Int)),
   ("speed_limit_down_enabled", .bool p.speed_limit_down_enabled),
   ("speed_limit_down", .int (p.speed_limit_down.val : Int)),
   ("seed_ratio_limited", .bool p.seed_ratio_limited),
   ("seed_ratio_limit", .num p.seed_ratio_limit),
   ("idle_seeding_limit_enabled", .bool p.idle_seeding_limit_enabled),
   ("idle_seeding_limit", .int (p.idle_seeding_limit.val : Int)),
   ("peer_limit_per_torrent", .int (p.peer_limit_per_torrent.val : Int)),
   ("peer_limit_global", .int (p.peer_limit_global.val : Int)),
   ("encryption", .str p.encryption_mode.rpcValue),
   ("pex_enabled", .bool p.pex_enabled),
   ("dht_enabled", .bool p.dht_enabled),
   ("lpd_enabled", .bool p.lpd_enabled),
   ("blocklist_enabled", .bool p.blocklist_enabled),
   ("blocklist_url", .str (p.blocklist_url.getD ""))]

/-- PreferencesResponse (src/preferences.rs lines 130-174): every field is
optional; serde accepts the rename name and the listed alias. -/
structure PreferencesResponse where
  download_dir : Option String
  start_added_torrents : Option Bool
  speed_limit_up : Option Int
  speed_limit_up_enabled : Option Bool
  speed_limit_down : Option Int
  speed_limit_down_enabled : Option Bool
  seed_ratio_limited : Option Bool
  seed_ratio_limit : Option Rat
  idle_seeding_limit_enabled : Option Bool
  idle_seeding_limit : Option Int
  peer_limit_per_torrent : Option Int
  peer_limit_global : Option Int
  encryption : Option String
  pex_enabled : Option Bool
  dht_enabled : Option Bool
  lpd_enabled : Option Bool
  blocklist_enabled : Option Bool
  blocklist_url : Option String
deriving DecidableEq, Repr

/-- First key of `names` present in the map (serde reads the field under its
rename name or any alias). -/
def lookupAny (m : List (String × JsonValue)) (names : List String) : Option JsonValue :=
  match names with
  | [] => none
  | n :: rest =>
    match lookupKey m n with
    | some v => some v
    | none => lookupAny m rest

/-- Decode one optional field: missing key gives `none`; a present key whose
value has the wrong JSON type is a deserialization error (overall `none`). -/
def decodeField (m : List (String × JsonValue)) (names : List String)
    (read : JsonValue → Option α) : Option (Option α) :=
  match lookupAny m names with
  | none => some none
  | some v => (read v).map some

/-- The serde-derived deserializer for `PreferencesResponse`, applied to a
JSON object.  Each field is read under its rename name or alias with the
declared type; the decode succeeds iff every present field is well typed
(serde aborts at the first ill-typed field, but the eighteen decodes are
independent of each other, so checking them all is extensionally the same:
the result is `none` iff some field fails, and otherwise every field carries
its decoded value).  The flat formulation avoids an 18-deep match tree. -/
def parsePreferencesResponse (m : List (String × JsonValue)) : Option PreferencesResponse :=
  if (decodeField m ["download_dir", "download-dir"] jsonAsStr).isSome
    ∧ (decodeField m ["start_added_torrents", "start-added-torrents"] jsonAsBool).isSome
    ∧ (decodeField m ["speed_limit_up", "speed-limit-up"] jsonAsI64).isSome
    ∧ (decodeField m ["speed_limit_up_enabled", "speed-limit-up-enabled"] jsonAsBool).isSome
    ∧ (decodeField m ["speed_limit_down", "speed-limit-down"] jsonAsI64).isSome
    ∧ (decodeField m ["speed_limit_down_enabled", "speed-limit-down-enabled"] jsonAsBool).isSome
    ∧ (decodeField m ["seed_ratio_limited", "seedRatioLimited"] jsonAsBool).isSome
    ∧ (decodeField m ["seed_ratio_limit", "seedRatioLimit"] jsonAsF64).isSome
    ∧ (decodeField m ["idle_seeding_limit_enabled", "idle-seeding-limit-enabled"] jsonAsBool).isSome
    ∧ (decodeField m ["idle_seeding_limit", "idle-seeding-limit"] jsonAsI64).isSome
    ∧ (decodeField m ["peer_limit_per_torrent", "peer-limit-per-torrent"] jsonAsI64).isSome
    ∧ (decodeField m ["peer_limit_global", "peer-limit-global"] jsonAsI64).isSome
    ∧ (decodeField m ["encryption"] jsonAsStr).isSome
    ∧ (decodeField m ["pex_enabled", "pex-enabled"] jsonAsBool).isSome
    ∧ (decodeField m ["dht_enabled", "dht-enabled"] jsonAsBool).isSome
    ∧ (decodeField m ["lpd_enabled", "lpd-enabled"] jsonAsBool).isSome
    ∧ (decodeField m ["blocklist_enabled", "blocklist-enabled"] jsonAsBool).isSome
    ∧ (decodeField m ["blocklist_url", "blocklist-url"] jsonAsStr).isSome
  then
    some {
      download_dir := (decodeField m ["download_dir", "download-dir"] jsonAsStr).getD none
      start_added_torrents := (decodeField m ["start_added_torrents", "start-added-torrents"] jsonAsBool).getD none
      speed_limit_up := (decodeField m ["speed_limit_up", "speed-limit-up"] jsonAsI64).getD none
      speed_limit_up_enabled := (decodeField m ["speed_limit_up_enabled", "speed-limit-up-enabled"] jsonAsBool).getD none
      speed_limit_down := (decodeField m ["speed_limit_down", "speed-limit-down"] jsonAsI64).getD none
      speed_limit_down_enabled := (decodeField m ["speed_limit_down_enabled", "speed-limit-down-enabled"] jsonAsBool).getD none
      seed_ratio_limited := (decodeField m ["seed_ratio_limited", "seedRatioLimited"] jsonAsBool).getD none
      seed_ratio_limit := (decodeField m ["seed_ratio_limit", "seedRatioLimit"] jsonAsF64).getD none
      idle_seeding_limit_enabled := (decodeField m ["idle_seeding_limit_enabled", "idle-seeding-limit-enabled"] jsonAsBool).getD none
      idle_seeding_limit := (decodeField m ["idle_seeding_limit", "idle-seeding-limit"] jsonAsI64).getD none
      peer_limit_per_torrent := (decodeField m ["peer_limit_per_torrent", "peer-limit-per-torrent"] jsonAsI64).getD none
      peer_limit_global := (decodeField m ["peer_limit_global", "peer-limit-global"] jsonAsI64).getD none
      encryption := (decodeField m ["encryption"] jsonAsStr).getD none
      pex_enabled := (decodeField m ["pex_enabled", "pex-enabled"] jsonAsBool).getD none
      dht_enabled := (decodeField m ["dht_enabled", "dht-enabled"] jsonAsBool).getD none
      lpd_enabled := (decodeField m ["lpd_enabled", "lpd-enabled"] jsonAsBool).getD none
      blocklist_enabled := (decodeField m ["blocklist_enabled", "blocklist-enabled"] jsonAsBool).getD none
      blocklist_url := (decodeField m ["blocklist_url", "blocklist-url"] jsonAsStr).getD none
    }
  else none

/-- The `.max(0) as u32` conversion applied to the optional i64 fields in
`From<PreferencesResponse>`. -/
def i64MaxZeroAsU32 (n : Int) : U32 :=
  ⟨(max n 0).toNat % 2 ^ 32, Nat.mod_lt _ (by norm_num)⟩

/-- impl From PreferencesResponse for DaemonPreferences
(src/preferences.rs lines 176-203): defaults and conversions per field. -/
def prefsFromResponse (value : PreferencesResponse) : DaemonPreferences where
  download_dir := value.download_dir.getD ""
  start_when_added := value.start_added_torrents.getD true
  speed_limit_up_enabled := value.speed_limit_up_enabled.getD false
  speed_limit_up := i64MaxZeroAsU32 (value.speed_limit_up.getD 0)
  speed_limit_down_enabled := value.speed_limit_down_enabled.getD false
  speed_limit_down := i64MaxZeroAsU32 (value.speed_limit_down.getD 0)
  seed_ratio_limited := value.seed_ratio_limited.getD false
  seed_ratio_limit := value.seed_ratio_limit.getD 2
  idle_seeding_limit_enabled := value.idle_seeding_limit_enabled.getD false
  idle_seeding_limit := i64MaxZeroAsU32 (value.idle_seeding_limit.getD 30)
  peer_limit_per_torrent := i64MaxZeroAsU32 (value.peer_limit_per_torrent.getD 50)
  peer_limit_global := i64MaxZeroAsU32 (value.peer_limit_global.getD 200)
  encryption_mode := (value.encryption.map EncryptionMode.fromRpc).getD .Prefer
  pex_enabled := value.pex_enabled.getD true
  dht_enabled := value.dht_enabled.getD true
  lpd_enabled := value.lpd_enabled.getD true
  blocklist_enabled := value.blocklist_enabled.getD false
  blocklist_url := value.blocklist_url.filter (fun s => !s.isEmpty)

/-- RpcProtocol (src/rpc.rs lines 300-304). -/
inductive RpcProtocol where
  | Json
  | Legacy
deriving DecidableEq, Repr

/-- method_for_protocol (src/rpc.rs lines 408-424). -/
def methodForProtocol (method : String) (protocol : RpcProtocol) : String :=
  if protocol = .Legacy then
    match method with
    | "session_get" => "session-get"
    | "session_set" => "session-set"
    | "session_stats" => "session-stats"
    | "torrent_get" => "torrent-get"
    | "torrent_add" => "torrent-add"
    | "torrent_remove" => "torrent-remove"
    | "torrent_start" => "torrent-start"
    | "torrent_stop" => "torrent-stop"
    | other => other
  else method

/-- legacy_session_field_name (src/rpc.rs lines 481-502): note that
"encryption" is not in the map and falls through unchanged. -/
def legacySessionFieldName (field : String) : String :=
  match field with
  | "download_dir" => "download-dir"
  | "start_added_torrents" => "start-added-torrents"
  | "speed_limit_up" => "speed-limit-up"
  | "speed_limit_up_enabled" => "speed-limit-up-enabled"
  | "speed_limit_down" => "speed-limit-down"
  | "speed_limit_down_enabled" => "speed-limit-down-enabled"
  | "seed_ratio_limited" => "seedRatioLimited"
  | "seed_ratio_limit" => "seedRatioLimit"
  | "idle_seeding_limit_enabled" => "idle-seeding-limit-enabled"
  | "idle_seeding_limit" => "idle-seeding-limit"
  | "peer_limit_per_torrent" => "peer-limit-per-torrent"
  | "peer_limit_global" => "peer-limit-global"
  | "pex_enabled" => "pex-enabled"
  | "dht_enabled" => "dht-enabled"
  | "lpd_enabled" => "lpd-enabled"
  | "blocklist_enabled" => "blocklist-enabled"
  | "blocklist_url" => "blocklist-url"
  | other => other

/-- legacy_torrent_field_name (src/rpc.rs lines 504-519). -/
def legacyTorrentFieldName (field : String) : String :=
  match field with
  | "percent_done" => "percentDone"
  | "rate_download" => "rateDownload"
  | "rate_upload" => "rateUpload"
  | "upload_ratio" => "uploadRatio"
  | "size_when_done" => "sizeWhenDone"
  | "left_until_done" => "leftUntilDone"
  | "download_dir" => "downloadDir"
  | "peers_connected" => "peersConnected"
  | "peers_sending_to_us" => "peersSendingToUs"
  | "peers_getting_from_us" => "peersGettingFromUs"
  | "error_string" => "errorString"
  | other => other

/-- map_fields_argument (src/rpc.rs lines 443-456): rewrite the string
elements of the "fields" array of an object; the source mutates the single
"fields" entry of a unique-key map, which the list map reproduces. -/
def mapFieldsArgument (value : JsonValue) (mapper : String → String) : JsonValue :=
  match value with
  | .obj m =>
    .obj (m.map fun kv =>
      if kv.1 == "fields" then
        (kv.1,
          match kv.2 with
          | .arr fields =>
            .arr (fields.map fun field =>
              match field with
              | .str name => .str (mapper name)
              | other => other)
          | other => other)
      else kv)
  | other => other

/-- map_object_keys (src/rpc.rs lines 458-468): only keys are rewritten,
values pass through untouched. -/
def mapObjectKeys (value : JsonValue) (mapper : String → String) : JsonValue :=
  match value with
  | .obj m => .obj (m.map fun kv => (mapper kv.1, kv.2))
  | other => other

/-- rename_key (src/rpc.rs lines 470-479). -/
def renameKey (value : JsonValue) (fromKey toKey : String) : JsonValue :=
  match value with
  | .obj m =>
    match lookupKey m fromKey with
    | some v => .obj ((m.filter fun kv => kv.1 != fromKey) ++ [(toKey, v)])
    | none => .obj m
  | other => other

/-- translate_arguments_for_protocol (src/rpc.rs lines 426-441). -/
def translateArgumentsForProtocol (protocol : RpcProtocol) (method : String)
    (arguments : Option JsonValue) : Option JsonValue :=
  if protocol ≠ .Legacy then arguments
  else
    arguments.map fun value =>
      match method with
      | "session_get" => mapFieldsArgument value legacySessionFieldName
      | "torrent_get" => mapFieldsArgument value legacyTorrentFieldName
      | "session_set" => mapObjectKeys value legacySessionFieldName
      | "torrent_remove" => renameKey value "delete_local_data" "delete-local-data"
      | _ => value

/-- The encryption value a `session_set` request for preferences `p` puts on
the wire under `protocol`: build the arguments with `to_rpc_map`, run them
through the protocol translation, and look up the "encryption" key. -/
def emittedEncryptionValue (protocol : RpcProtocol) (p : DaemonPreferences) : Option JsonValue :=
  match translateArgumentsForProtocol protocol "session_set" (some (.obj p.toRpcMap)) with
  | some (.obj m) => lookupKey m "encryption"
  | _ => none

/-- A concrete preferences value whose blocklist URL is the empty string. -/
def samplePrefs : DaemonPreferences where
  download_dir := "/downloads"
  start_when_added := true
  speed_limit_up_enabled := false
  speed_limit_up := 100
  speed_limit_down_enabled := true
  speed_limit_down := 200
  seed_ratio_limited := false
  seed_ratio_limit := 2
  idle_seeding_limit_enabled := false
  idle_seeding_limit := 30
  peer_limit_per_torrent := 50
  peer_limit_global := 240
  encryption_mode := .Allow
  pex_enabled := true
  dht_enabled := true
  lpd_enabled := true
  blocklist_enabled := false
  blocklist_url := some ""

/-- C6 witness input: a preferences value with a nonempty blocklist URL. -/
def samplePrefsFull : DaemonPreferences where
  download_dir := "/data"
  start_when_added := false
  speed_limit_up_enabled := true
  speed_limit_up := 250
  speed_limit_down_enabled := false
  speed_limit_down := 0
  seed_ratio_limited := true
  seed_ratio_limit := 3/2
  idle_seeding_limit_enabled := true
  idle_seeding_limit := 45
  peer_limit_per_torrent := 60
  peer_limit_global := 500
  encryption_mode := .Require
  pex_enabled := false
  dht_enabled := true
  lpd_enabled := false
  blocklist_enabled := true
  blocklist_url := some "http://example.com/blocklist"

/-- is_prefix test on character lists (needle, haystack). -/
def charsPref : List Char → List Char → Bool
  | [], _ => true
  | _ :: _, [] => false
  | a :: as, b :: bs => a == b && charsPref as bs

/-- Substring occurrence test on character lists (needle, haystack):
model of `str::contains`. -/
def charsSub : List Char → List Char → Bool
  | needle, [] => charsPref needle []
  | needle, hay@(_ :: tl) => charsPref needle hay || charsSub needle tl

/-- Model of `str::contains(&pat)`: `pat` occurs in `hay`. -/
def containsSub (hay pat : String) : Bool :=
  charsSub pat.toList hay.toList

/-- Model of `char::to_ascii_lowercase`. -/
def asciiLowerChar (c : Char) : Char :=
  if 'A' ≤ c ∧ c ≤ 'Z' then Char.ofNat (c.toNat + 32) else c

/-- Model of `str::to_ascii_lowercase`. -/
def asciiLower (s : String) : String :=
  s.map asciiLowerChar

/-- TransmissionError (src/rpc.rs lines 22-40).  `http` and `parse` carry
their message; `httpStatus` carries the status code. -/
inductive TransmissionError where
  | http (detail : String)
  | authentication
  | session
  | httpStatus (code : Nat)
  | rpc (code : Int) (message : String) (context : String)
  | parse (detail : String)
deriving DecidableEq, Repr

/-- TransmissionClient::should_retry_in_legacy (src/rpc.rs lines 241-251). -/
def shouldRetryInLegacy (err : TransmissionError) : Bool :=
  match err with
  | .rpc code message _ =>
    let normalized := asciiLower message
    code == -32601
      || containsSub normalized "method not found"
      || containsSub normalized "method name not recognized"
  | _ => false

/-- The initial value of the `use_json_rpc` flag
(`AtomicBool::new(true)`, src/rpc.rs line 76). -/
def initialUseJsonRpc : Bool := true

/-- Result of one `call_raw`: the flag value after the call, the value or
error returned to the caller, and the `call_raw_inner` invocations made, in
order, as (protocol, method, untranslated arguments) triples. -/
structure CallOutcome where
  useJsonRpc : Bool
  result : Except TransmissionError JsonValue
  attempts : List (RpcProtocol × String × Option JsonValue)
deriving Repr

/-- TransmissionClient::call_raw (src/rpc.rs lines 198-210).  `oracle`
abstracts `call_raw_inner` (translation + transport + body handling): it
gives the daemon's answer to an attempt of this call under a protocol. -/
def callRaw (useJsonRpc : Bool)
    (oracle : RpcProtocol → String → Option JsonValue → Except TransmissionError JsonValue)
    (method : String) (arguments : Option JsonValue) : CallOutcome :=
  if useJsonRpc then
    match oracle .Json method arguments with
    | .ok value => ⟨true, .ok value, [(.Json, method, arguments)]⟩
    | .error err =>
      if shouldRetryInLegacy err then
        ⟨false, oracle .Legacy method arguments,
          [(.Json, method, arguments), (.Legacy, method, arguments)]⟩
      else
        ⟨true, .error err, [(.Json, method, arguments)]⟩
  else
    ⟨false, oracle .Legacy method arguments, [(.Legacy, method, arguments)]⟩

/-- A whole process: fold `call_raw` over a list of calls, threading the
dialect flag. -/
def runCalls (flag : Bool)
    (oracle : RpcProtocol → String → Option JsonValue → Except TransmissionError JsonValue) :
    List (String × Option JsonValue) → Bool
  | [] => flag
  | (method, args) :: rest => runCalls (callRaw flag oracle method args).useJsonRpc oracle rest

mutual

/-- Minimal JSON serializer, model of `Value::to_string` (used only to build
human-readable error contexts; `num` printing stands in for f64 display). -/
def jsonToString : JsonValue → String
  | .null => "null"
  | .bool true => "true"
  | .bool false => "false"
  | .int n => toString n
  | .num q => toString q
  | .str s => "\"" ++ s ++ "\""
  | .arr items => "[" ++ String.intercalate "," (jsonItemsToString items) ++ "]"
  | .obj fields => "\x7b" ++ String.intercalate "," (jsonFieldsToString fields) ++ "\x7d"

def jsonItemsToString : List JsonValue → List String
  | [] => []
  | v :: rest => jsonToString v :: jsonItemsToString rest

def jsonFieldsToString : List (String × JsonValue) → List String
  | [] => []
  | kv :: rest => ("\"" ++ kv.1 ++ "\":" ++ jsonToString kv.2) :: jsonFieldsToString rest

end

/-- Second part of extract_context_from_value: the `result` key check. -/
def contextAfterErrString (m : List (String × JsonValue)) (value : JsonValue) : Option String :=
  match lookupKey m "result" with
  | some result =>
    if !result.isNull then some (jsonToString result)
    else if m.isEmpty then none else some (jsonToString value)
  | none => if m.isEmpty then none else some (jsonToString value)

/-- extract_context_from_value (src/rpc.rs lines 377-399). -/
def extractContextFromValue (value : JsonValue) : Option String :=
  match value with
  | .obj m =>
    match (lookupKey m "error_string").bind jsonAsStr with
    | some err => if err ≠ "" then some err else contextAfterErrString m value
    | none => contextAfterErrString m value
  | .null => none
  | v => some (jsonToString v)

/-- response_parse_error (src/rpc.rs lines 401-406). -/
def responseParseError (msg : String) : TransmissionError :=
  .parse msg

/-- parse_json_rpc_error (src/rpc.rs lines 358-375). -/
def parseJsonRpcError (error : JsonValue) : TransmissionError :=
  let code := ((jsonGet error "code").bind jsonAsI64).getD (-1)
  let message := ((jsonGet error "message").bind jsonAsStr).getD "rpc error"
  let context :=
    (((jsonGet error "data").bind extractContextFromValue).map
      (fun ctx => " (" ++ ctx ++ ")")).getD ""
  .rpc code message context

/-- handle_json_rpc_body (src/rpc.rs lines 331-336). -/
def handleJsonRpcBody (body : JsonValue) : Except TransmissionError JsonValue :=
  match jsonGet body "error" with
  | some error => .error (parseJsonRpcError error)
  | none => .ok ((jsonGet body "result").getD .null)

/-- handle_legacy_body (src/rpc.rs lines 338-356). -/
def handleLegacyBody (body : JsonValue) : Except TransmissionError JsonValue :=
  match (jsonGet body "result").bind jsonAsStr with
  | none => .error (responseParseError "missing legacy result")
  | some result =>
    if result ≠ "success" then
      let context :=
        (((jsonGet body "arguments").bind extractContextFromValue).map
          (fun ctx => " (" ++ ctx ++ ")")).getD ""
      .error (.rpc (-1) result context)
    else
      .ok ((jsonGet body "arguments").getD .null)

/-- handle_response_body (src/rpc.rs lines 323-329). -/
def handleResponseBody (body : JsonValue) : Except TransmissionError JsonValue :=
  if (jsonGet body "jsonrpc").isSome then handleJsonRpcBody body
  else handleLegacyBody body

/-- One HTTP answer from the daemon, as seen by `perform_request`:
a 409 with its optional `X-Transmission-Session-Id` header, a 401, another
non-2xx status, or a 2xx with a JSON body. -/
inductive HttpResponse where
  | conflict (sessionHeader : Option String)
  | unauthorized
  | failure (code : Nat)
  | success (body : JsonValue)
deriving Repr

/-- TransmissionClient::perform_request (src/rpc.rs lines 253-297).
`payload` is the serialized request (opaque to this function: the same value
is re-sent on every iteration of the loop); `sessionId` is the token stored
in the client; `responses` are the daemon's successive HTTP answers.
Returns the final stored token, the call's result, and the trace of
(payload, token carried in X-Transmission-Session-Id) requests sent.
`none` means the daemon's answers ran out (the loop would still be running;
a real daemon eventually answers with a non-409). -/
def performRequest (payload : α) (sessionId : Option String) :
    List HttpResponse →
    Option (Option String × Except TransmissionError JsonValue × List (α × Option String))
  | [] => none
  | response :: rest =>
    match response with
    | .conflict (some token) =>
      (performRequest payload (some token) rest).map
        (fun out => (out.1, out.2.1, (payload, sessionId) :: out.2.2))
    | .conflict none => some (sessionId, .error .session, [(payload, sessionId)])
    | .unauthorized => some (sessionId, .error .authentication, [(payload, sessionId)])
    | .failure code => some (sessionId, .error (.httpStatus code), [(payload, sessionId)])
    | .success body => some (sessionId, handleResponseBody body, [(payload, sessionId)])

def removeTorrents (oracle : String → Option JsonValue → Except TransmissionError JsonValue)
    (ids : List Int) (deleteLocalData : Bool) :
    Except TransmissionError Unit × List (String × Option JsonValue) :=
  if ids.isEmpty then (.ok (), [])
  else
    let args : JsonValue :=
      .obj [("ids", .arr (ids.map JsonValue.int)), ("delete_local_data", .bool deleteLocalData)]
    (match oracle "torrent_remove" (some args) with
     | .ok _ => .ok ()
     | .error e => .error e,
     [("torrent_remove", some args)])

def startTorrents (oracle : String → Option JsonValue → Except TransmissionError JsonValue)
    (ids : List Int) :
    Except TransmissionError Unit × List (String × Option JsonValue) :=
  if ids.isEmpty then (.ok (), [])
  else
    let args : JsonValue := .obj [("ids", .arr (ids.map JsonValue.int))]
    (match oracle "torrent_start" (some args) with
     | .ok _ => .ok ()
     | .error e => .error e,
     [("torrent_start", some args)])

def stopTorrents (oracle : String → Option JsonValue → Except TransmissionError JsonValue)
    (ids : List Int) :
    Except TransmissionError Unit × List (String × Option JsonValue) :=
  if ids.isEmpty then (.ok (), [])
  else
    let args : JsonValue := .obj [("ids", .arr (ids.map JsonValue.int))]
    (match oracle "torrent_stop" (some args) with
     | .ok _ => .ok ()
     | .error e => .error e,
     [("torrent_stop", some args)])

structure TorrentRef where
  id : Option Int
  name : Option String
deriving DecidableEq, Repr

structure AddTorrentResponse where
  torrent_added : Option TorrentRef
  torrent_duplicate : Option TorrentRef
deriving DecidableEq, Repr

structure AddTorrentOutcome where
  torrent_id : Option Int
  name : Option String
  added : Bool
  duplicate : Bool
deriving DecidableEq, Repr

def addTorrentOutcomeFrom (resp : AddTorrentResponse) : AddTorrentOutcome :=
  match resp.torrent_added with
  | some addedRef => ⟨addedRef.id, addedRef.name, true, false⟩
  | none =>
    match resp.torrent_duplicate with
    | some dup => ⟨dup.id, dup.name, false, true⟩
    | none => ⟨none, none, false, false⟩

def bothAddResp : AddTorrentResponse :=
  ⟨some ⟨some 7, some "foo"⟩, some ⟨some 9, some "bar"⟩⟩

instance exceptDecEq {ε α : Type} [DecidableEq ε] [DecidableEq α] : DecidableEq (Except ε α)
  | .ok a, .ok b =>
    if h : a = b then isTrue (by rw [h]) else isFalse (fun hc => by injection hc; contradiction)
  | .ok _, .error _ => isFalse (fun hc => Except.noConfusion hc)
  | .error _, .ok _ => isFalse (fun hc => Except.noConfusion hc)
  | .error a, .error b =>
    if h : a = b then isTrue (by rw [h]) else isFalse (fun hc => by injection hc; contradiction)

def digitsVal (cs : List Char) : Option Nat :=
  if cs.isEmpty then none
  else if cs.all (fun c => c.isDigit) then
    some (cs.foldl (fun acc c => acc * 10 + (c.toNat - '0'.toNat)) 0)
  else none

def parseI64 (s : String) : Option Int :=
  match s.toList with
  | '+' :: rest =>
    (digitsVal rest).bind (fun n => if (n : Int) ≤ 2 ^ 63 - 1 then some (n : Int) else none)
  | '-' :: rest =>
    (digitsVal rest).bind (fun n => if (n : Int) ≤ 2 ^ 63 then some (-(n : Int)) else none)
  | cs =>
    (digitsVal cs).bind (fun n => if (n : Int) ≤ 2 ^ 63 - 1 then some (n : Int) else none)

def rustTrim (s : String) : String :=
  ⟨((s.toList.dropWhile Char.isWhitespace).reverse.dropWhile Char.isWhitespace).reverse⟩

def parseNonNegative (input label : String) : Except String Nat :=
  match parseI64 (rustTrim input) with
  | none => .error ("Enter a valid number for " ++ label)
  | some value =>
    if value < 0 then .error (label ++ " must be zero or positive")
    else .ok (value.toNat % 2 ^ 32)

def parsePositive (input label : String) : Except String Nat :=
  match parseI64 (rustTrim input) with
  | none => .error ("Enter a valid number for " ++ label)
  | some value =>
    if value ≤ 0 then .error (label ++ " must be greater than zero")
    else .ok (value.toNat % 2 ^ 32)

inductive StatusLevel where
  | info
  | success
  | warning
  | error
deriving DecidableEq, Repr

inductive WorkerEvent where
  | preferences (result : Except TransmissionError DaemonPreferences)
  | status (level : StatusLevel) (text : String)
deriving DecidableEq, Repr

def handleUpdatePreferences
    (setResult : Except TransmissionError Unit)
    (fetchResult : Except TransmissionError DaemonPreferences) :
    List WorkerEvent × List String :=
  let calls :=
    match setResult with
    | .ok _ => ["session_set", "session_get"]
    | .error _ => ["session_set"]
  match (match setResult with
         | .ok _ => fetchResult
         | .error e => .error e) with
  | .ok updated =>
    ([.preferences (.ok updated), .status .success "Preferences updated"], calls)
  | .error e => ([.preferences (.error e)], calls)

def demoOracle : RpcProtocol → String → Option JsonValue → Except TransmissionError JsonValue :=
  fun proto _ _ =>
    match proto with
    | .Json => .error (.rpc (-32601) "Method not found" "")
    | .Legacy => .ok .null

structure Torrent where
  torrentId : Int
  name : String
deriving DecidableEq, Repr

structure AppSel where
  snapshot : Option (List Torrent)
  filteredIndices : List Nat
  filterText : String
  filterLower : String
  pendingFocus : Option Int
  selectedId : Option Int
  listSelected : Option Nat
deriving DecidableEq, Repr

def rustLowercase (s : String) : String :=
  ⟨s.toList.map asciiLowerChar⟩

def matchesFilter (filterLower : String) (torrent : Torrent) : Bool :=
  if filterLower.isEmpty then true
  else containsSub (rustLowercase torrent.name) filterLower

def rebuildList (torrents : List Torrent) (filterLower : String) : List Nat :=
  (List.range torrents.length).filter fun idx =>
    match torrents[idx]? with
    | some torrent => matchesFilter filterLower torrent
    | none => false

def filteredFor (snapshot : Option (List Torrent)) (filterLower : String) : List Nat :=
  match snapshot with
  | some torrents => rebuildList torrents filterLower
  | none => []

def currentTorrent (s : AppSel) : Option Torrent := do
  let torrents ← s.snapshot
  let selected ← s.listSelected
  let torrentIndex ← s.filteredIndices[selected]?
  torrents[torrentIndex]?

def updateSelectedId (s : AppSel) : AppSel :=
  { s with selectedId := (currentTorrent s).map (fun t => t.torrentId) }

def positionOf (p : α → Bool) : List α → Option Nat
  | [] => none
  | a :: rest => if p a then some 0 else (positionOf p rest).map (fun n => n + 1)

def findPosOfId (torrents : List Torrent) (indices : List Nat) (target : Int) : Option Nat :=
  positionOf
    (fun idx =>
      match torrents[idx]? with
      | some t => t.torrentId == target
      | none => false)
    indices

def focusTarget (s : AppSel) : Option Int :=
  match s.pendingFocus with
  | some t => some t
  | none => s.selectedId

def rebuildFallback (s1 : AppSel) (fi : List Nat) : AppSel :=
  let sel := min (s1.listSelected.getD 0) (fi.length - 1)
  updateSelectedId { s1 with listSelected := some sel }

def rebuildIndices (s : AppSel) : AppSel :=
  let fi := filteredFor s.snapshot s.filterLower
  if fi.isEmpty then
    { s with filteredIndices := fi, listSelected := none, selectedId := none }
  else
    let s1 := { s with filteredIndices := fi, pendingFocus := none }
    match focusTarget s with
    | some t =>
      match findPosOfId (s.snapshot.getD []) fi t with
      | some pos => { s1 with listSelected := some pos, selectedId := some t }
      | none => rebuildFallback s1 fi
    | none => rebuildFallback s1 fi

def applyFilterText (value : String) (s : AppSel) : AppSel :=
  rebuildIndices { s with filterText := value, filterLower := rustLowercase value }

def clearFilter (s : AppSel) : AppSel :=
  if s.filterText.isEmpty then s
  else rebuildIndices { s with filterText := "", filterLower := "" }

def snapshotSeed (snap : List Torrent) (s : AppSel) : AppSel :=
  let s1 := { s with snapshot := some snap, pendingFocus := none, selectedId := focusTarget s }
  if s1.selectedId.isNone then
    { s1 with selectedId := snap.head?.map (fun t => t.torrentId) }
  else s1

def applySnapshotOk (snap : List Torrent) (s : AppSel) : AppSel :=
  rebuildIndices (snapshotSeed snap s)

def moveSelection (delta : Int) (s : AppSel) : AppSel :=
  if s.filteredIndices.isEmpty then s
  else
    let maxIndex : Int := (s.filteredIndices.length : Int) - 1
    let current : Int := ((s.listSelected.getD 0 : Nat) : Int)
    let next : Nat := (min (max (current + delta) 0) maxIndex).toNat
    updateSelectedId { s with listSelected := some next }

def gotoTop (s : AppSel) : AppSel :=
  if s.filteredIndices.isEmpty then s
  else updateSelectedId { s with listSelected := some 0 }

def gotoBottom (s : AppSel) : AppSel :=
  if s.filteredIndices.isEmpty then s
  else updateSelectedId { s with listSelected := some (s.filteredIndices.length - 1) }

def setPendingFocus (target : Option Int) (s : AppSel) : AppSel :=
  { s with pendingFocus := target }

def initialApp : AppSel :=
  { snapshot := none, filteredIndices := [], filterText := "", filterLower := "",
    pendingFocus := none, selectedId := none, listSelected := none }

inductive AppStep : AppSel → AppSel → Prop
  | applyFilter (v : String) (s : AppSel) : AppStep s (applyFilterText v s)
  | clear (s : AppSel) : AppStep s (clearFilter s)
  | snapshotOk (snap : List Torrent) (s : AppSel) : AppStep s (applySnapshotOk snap s)
  | move (delta : Int) (s : AppSel) : AppStep s (moveSelection delta s)
  | top (s : AppSel) : AppStep s (gotoTop s)
  | bottom (s : AppSel) : AppStep s (gotoBottom s)
  | focus (target : Option Int) (s : AppSel) : AppStep s (setPendingFocus target s)

inductive ReachableApp : AppSel → Prop
  | init : ReachableApp initialApp
  | step {s s' : AppSel} : ReachableApp s → AppStep s s' → ReachableApp s'

def SelectionInv (s : AppSel) : Prop :=
  s.filteredIndices = filteredFor s.snapshot s.filterLower ∧
  (∀ i, s.listSelected = some i → i < s.filteredIndices.length) ∧
  (s.listSelected.isSome ↔ s.filteredIndices ≠ [])

def demoTorrents : List Torrent := [⟨1, "alpha"⟩, ⟨2, "beta"⟩, ⟨3, "gamma"⟩]

def demoReached : AppSel := applyFilterText "a" (applySnapshotOk demoTorrents initialApp)

def filterTorrents : List Torrent := [⟨1, "alpha"⟩, ⟨2, "beto"⟩, ⟨3, "gamma"⟩]

def preFilterState : AppSel := moveSelection 1 (applySnapshotOk filterTorrents initialApp)

lemma u32_maxZero_roundtrip (v : U32) : i64MaxZeroAsU32 ((v.val : Int)) = v := by
  apply Fin.ext
  simp only [i64MaxZeroAsU32]
  rw [max_eq_left (by positivity)]
  simp only [Int.toNat_natCast]
  exact Nat.mod_eq_of_lt v.isLt

lemma fromRpc_rpcValue (m : EncryptionMode) : EncryptionMode.fromRpc m.rpcValue = m := by
  cases m <;> rfl

lemma jsonAsI64_u32 (v : U32) : jsonAsI64 (.int (v.val : Int)) = some (v.val : Int) := by
  have h := v.isLt
  simp only [jsonAsI64]
  rw [if_pos]
  exact ⟨by omega, by omega⟩

/-- Parsing the serialized preferences map recovers every field (still
wrapped in the response's options). -/
lemma prefs_parse_toRpcMap (p : DaemonPreferences) :
    parsePreferencesResponse p.toRpcMap = some
      ⟨some p.download_dir, some p.start_when_added, some (p.speed_limit_up.val : Int),
       some p.speed_limit_up_enabled, some (p.speed_limit_down.val : Int),
       some p.speed_limit_down_enabled, some p.seed_ratio_limited, some p.seed_ratio_limit,
       some p.idle_seeding_limit_enabled, some (p.idle_seeding_limit.val : Int),
       some (p.peer_limit_per_torrent.val : Int), some (p.peer_limit_global.val : Int),
       some p.encryption_mode.rpcValue, some p.pex_enabled, some p.dht_enabled,
       some p.lpd_enabled, some p.blocklist_enabled, some (p.blocklist_url.getD "")⟩ := by
  simp [parsePreferencesResponse, decodeField, lookupAny, lookupKey,
    DaemonPreferences.toRpcMap, jsonAsStr, jsonAsBool, jsonAsI64_u32, jsonAsF64]

/-- C6 (amended): the round trip through `to_rpc_map` and the
`PreferencesResponse` decoder is the identity for every `DaemonPreferences`
whose `blocklist_url` is not `Some("")`.  (At `Some("")` the trip returns
`None` for that field, which is the counterexample.) -/
theorem c6_prefs_roundtrip (p : DaemonPreferences) (h : p.blocklist_url ≠ some "") :
    (parsePreferencesResponse p.toRpcMap).map prefsFromResponse = some p := by
  obtain ⟨dd, swa, sue, su, sde, sd, srl, sr, isle, isl, plt, plg, em, pex, dht, lpd, be, bu⟩ := p
  rw [prefs_parse_toRpcMap]
  cases bu with
  | none =>
    simp [prefsFromResponse, u32_maxZero_roundtrip, fromRpc_rpcValue, Option.filter]
    decide
  | some s =>
    have hs : s ≠ "" := by
      intro e
      exact h (by rw [e])
    have hse : s.isEmpty = false := by
      cases hEmpty : s.isEmpty
      · rfl
      · exact absurd ((String.isEmpty_iff s).mp hEmpty) hs
    simp [prefsFromResponse, u32_maxZero_roundtrip, fromRpc_rpcValue, Option.filter, hse]

/-- C6 witness: the round trip is the identity on a concrete value with a
nonempty blocklist URL. -/
theorem c6_prefs_roundtrip_witness :
    (parsePreferencesResponse samplePrefsFull.toRpcMap).map prefsFromResponse
      = some samplePrefsFull :=
  c6_prefs_roundtrip samplePrefsFull (by decide)

/-- C6 counterexample: with `blocklist_url = Some("")` the round trip does
not return the original value - the empty string is serialized as `""` and
decoded back to `None`. -/
theorem c6_counterexample :
    (parsePreferencesResponse samplePrefs.toRpcMap).map prefsFromResponse
      = some { samplePrefs with blocklist_url := none } ∧
    (parsePreferencesResponse samplePrefs.toRpcMap).map prefsFromResponse
      ≠ some samplePrefs := by
  constructor
  · decide
  · decide

/-- C2 (amended): the encryption value put on the wire by a `session_set`
request is `rpc_value` of the mode under BOTH dialects - `"preferred"`,
`"allowed"`, `"required"` - because the legacy translation layer rewrites
only object keys and never the `"encryption"` value (and the key
`"encryption"` itself is not renamed).  Inbound, all four wire strings are
parsed and `"tolerated"` decodes to `Allow`. -/
theorem c2_encryption_wire (p : DaemonPreferences) (proto : RpcProtocol) :
    emittedEncryptionValue proto p = some (.str p.encryption_mode.rpcValue) ∧
    EncryptionMode.fromRpc "preferred" = .Prefer ∧
    EncryptionMode.fromRpc "allowed" = .Allow ∧
    EncryptionMode.fromRpc "tolerated" = .Allow ∧
    EncryptionMode.fromRpc "required" = .Require := by
  refine ⟨?_, rfl, rfl, rfl, rfl⟩
  cases proto
  · simp [emittedEncryptionValue, translateArgumentsForProtocol,
      DaemonPreferences.toRpcMap, lookupKey]
  · simp [emittedEncryptionValue, translateArgumentsForProtocol, mapObjectKeys,
      DaemonPreferences.toRpcMap, lookupKey, legacySessionFieldName]

/-- C2 counterexample: under the legacy dialect (B), `Allow` is emitted as
`"allowed"`, not `"tolerated"` as the claim states. -/
theorem c2_counterexample :
    emittedEncryptionValue .Legacy samplePrefs = some (.str "allowed") ∧
    JsonValue.str "allowed" ≠ JsonValue.str "tolerated" := by
  refine ⟨rfl, ?_⟩
  intro hcontra
  injection hcontra with h2
  exact absurd h2 (by decide)

lemma performRequest_payload_const {α : Type} (payload : α) :
    ∀ (responses : List HttpResponse) (sid : Option String) out,
      performRequest payload sid responses = some out → ∀ q ∈ out.2.2, q.1 = payload := by
  intro responses
  induction responses with
  | nil => intro sid out h; simp [performRequest] at h
  | cons r rest ih =>
    intro sid out h
    cases r with
    | conflict oh =>
      cases oh with
      | some token =>
        simp only [performRequest, Option.map_eq_some'] at h
        obtain ⟨out0, hout0, rfl⟩ := h
        intro q hq
        simp only [List.mem_cons] at hq
        rcases hq with rfl | hq
        · rfl
        · exact ih (some token) out0 hout0 q hq
      | none =>
        simp only [performRequest, Option.some.injEq] at h
        subst h
        intro q hq
        simp only [List.mem_singleton] at hq
        subst hq
        rfl
    | unauthorized =>
      simp only [performRequest, Option.some.injEq] at h
      subst h
      intro q hq
      simp only [List.mem_singleton] at hq
      subst hq
      rfl
    | failure code =>
      simp only [performRequest, Option.some.injEq] at h
      subst h
      intro q hq
      simp only [List.mem_singleton] at hq
      subst hq
      rfl
    | success body =>
      simp only [performRequest, Option.some.injEq] at h
      subst h
      intro q hq
      simp only [List.mem_singleton] at hq
      subst hq
      rfl

lemma performRequest_first_request {α : Type} (payload : α) :
    ∀ (responses : List HttpResponse) (sid : Option String) out,
      performRequest payload sid responses = some out →
      out.2.2.head? = some (payload, sid) := by
  intro responses sid out h
  cases responses with
  | nil => simp [performRequest] at h
  | cons r rest =>
    cases r with
    | conflict oh =>
      cases oh with
      | some token =>
        simp only [performRequest, Option.map_eq_some'] at h
        obtain ⟨out0, hout0, rfl⟩ := h
        rfl
      | none =>
        simp only [performRequest, Option.some.injEq] at h
        subst h
        rfl
    | unauthorized =>
      simp only [performRequest, Option.some.injEq] at h
      subst h
      rfl
    | failure code =>
      simp only [performRequest, Option.some.injEq] at h
      subst h
      rfl
    | success body =>
      simp only [performRequest, Option.some.injEq] at h
      subst h
      rfl

/-- C4: on an HTTP 409 carrying an X-Transmission-Session-Id header the
client stores the header value as the new token and retransmits the
identical payload, returning the retry's eventual result transparently; a
409 without the header fails with the Session error; every request carries
the currently stored token, so each request after a store carries the
stored token. -/
theorem c4_session_handshake {α : Type} :
    (∀ (payload : α) (sid : Option String) (token : String) (rest : List HttpResponse),
      performRequest payload sid (.conflict (some token) :: rest)
        = (performRequest payload (some token) rest).map
            (fun out => (out.1, out.2.1, (payload, sid) :: out.2.2))) ∧
    (∀ (payload : α) (sid : Option String) (rest : List HttpResponse),
      performRequest payload sid (.conflict none :: rest)
        = some (sid, .error .session, [(payload, sid)])) ∧
    (∀ (payload : α) (sid : Option String) (responses : List HttpResponse) out,
      performRequest payload sid responses = some out →
      ∀ q ∈ out.2.2, q.1 = payload) ∧
    (∀ (payload : α) (sid : Option String) (responses : List HttpResponse) out,
      performRequest payload sid responses = some out →
      out.2.2.head? = some (payload, sid)) ∧
    (∀ (payload : α) (sid : Option String) (body : JsonValue) (rest : List HttpResponse),
      performRequest payload sid (.success body :: rest)
        = some (sid, handleResponseBody body, [(payload, sid)])) := by
  refine ⟨?_, ?_, ?_, ?_, ?_⟩
  · intro payload sid token rest
    rfl
  · intro payload sid rest
    rfl
  · intro payload sid responses out h
    exact performRequest_payload_const payload responses sid out h
  · intro payload sid responses out h
    exact performRequest_first_request payload responses sid out h
  · intro payload sid body rest
    rfl

/-- C3: the dialect flag starts at true (JSON-RPC, dialect A) and
transitions true to false at most once per process; the transition happens
exactly when a dialect-A call returns an RPC error satisfying
should_retry_in_legacy (code -32601 or a message containing "method not
found" / "method name not recognized" case-insensitively), in which case the
same method and arguments are retried once in dialect B; non-matching
errors propagate unchanged; once the flag is false every call goes directly
to dialect B. -/
theorem c3_dialect_negotiation
    (oracle : RpcProtocol → String → Option JsonValue → Except TransmissionError JsonValue)
    (method : String) (args : Option JsonValue) :
    initialUseJsonRpc = true ∧
    (∀ u, (callRaw u oracle method args).useJsonRpc = true → u = true) ∧
    (∀ calls, runCalls false oracle calls = false) ∧
    (∀ u, (callRaw u oracle method args).useJsonRpc = false ↔
      (u = false ∨ ∃ e, oracle .Json method args = .error e ∧ shouldRetryInLegacy e = true)) ∧
    (∀ e, oracle .Json method args = .error e → shouldRetryInLegacy e = true →
      (callRaw true oracle method args).attempts
          = [(.Json, method, args), (.Legacy, method, args)] ∧
      (callRaw true oracle method args).result = oracle .Legacy method args) ∧
    (∀ e, oracle .Json method args = .error e → shouldRetryInLegacy e = false →
      (callRaw true oracle method args).result = .error e ∧
      (callRaw true oracle method args).useJsonRpc = true) ∧
    ((callRaw false oracle method args).attempts = [(.Legacy, method, args)] ∧
     (callRaw false oracle method args).result = oracle .Legacy method args) := by
  refine ⟨rfl, ?_, ?_, ?_, ?_, ?_, ?_, ?_⟩
  · intro u h
    cases u
    · simp [callRaw] at h
    · rfl
  · intro calls
    induction calls with
    | nil => rfl
    | cons c rest ih =>
      obtain ⟨m, a⟩ := c
      simpa [runCalls, callRaw] using ih
  · intro u
    cases u
    · simp [callRaw]
    · cases horacle : oracle .Json method args with
      | ok v => simp [callRaw, horacle]
      | error e =>
        cases hretry : shouldRetryInLegacy e <;>
          simp [callRaw, horacle, hretry]
  · intro e horacle hretry
    simp [callRaw, horacle, hretry]
  · intro e horacle hretry
    simp [callRaw, horacle, hretry]
  · rfl
  · rfl

/-- C8: remove_torrents, start_torrents and stop_torrents with an empty id
slice return Ok(()) immediately and issue no request (empty request trace),
so the RPC produces nothing a worker handler could turn into an event. -/
theorem c8_empty_ids_noop
    (oracle : String → Option JsonValue → Except TransmissionError JsonValue)
    (deleteLocalData : Bool) :
    removeTorrents oracle [] deleteLocalData = (.ok (), []) ∧
    startTorrents oracle [] = (.ok (), []) ∧
    stopTorrents oracle [] = (.ok (), []) := by
  refine ⟨rfl, rfl, rfl⟩

/-- C10: the AddTorrentOutcome conversion never sets both booleans;
torrent_added takes precedence (added=true, duplicate=false, id/name from
the added object); with neither object both booleans are false and id/name
are absent. -/
theorem c10_add_outcome (resp : AddTorrentResponse) :
    (¬((addTorrentOutcomeFrom resp).added = true ∧
       (addTorrentOutcomeFrom resp).duplicate = true)) ∧
    (∀ addedRef, resp.torrent_added = some addedRef →
      addTorrentOutcomeFrom resp = ⟨addedRef.id, addedRef.name, true, false⟩) ∧
    (resp.torrent_added = none → ∀ dup, resp.torrent_duplicate = some dup →
      addTorrentOutcomeFrom resp = ⟨dup.id, dup.name, false, true⟩) ∧
    (resp.torrent_added = none → resp.torrent_duplicate = none →
      addTorrentOutcomeFrom resp = ⟨none, none, false, false⟩) := by
  obtain ⟨ta, td⟩ := resp
  refine ⟨?_, ?_, ?_, ?_⟩ <;> cases ta <;> cases td <;> simp [addTorrentOutcomeFrom]

/-- C10 witness: a response carrying both torrent_added and
torrent_duplicate yields added=true, duplicate=false with the added
object's id and name. -/
theorem c10_add_outcome_witness :
    addTorrentOutcomeFrom bothAddResp = ⟨some 7, some "foo", true, false⟩ ∧
    ¬((addTorrentOutcomeFrom bothAddResp).added = true ∧
      (addTorrentOutcomeFrom bothAddResp).duplicate = true) :=
  ⟨(c10_add_outcome bothAddResp).2.1 ⟨some 7, some "foo"⟩ rfl,
   (c10_add_outcome bothAddResp).1⟩

/-- C9: parse_positive returns Ok(i mod 2^32) for every input whose
trimmed text parses to an i64 i greater than 0, and parse_non_negative
returns Ok(i mod 2^32) for every parsed i at least 0; in particular the
accepted input "4294967296" yields Ok(0), so a committed peer-limit field
can be zero despite the positivity check. -/
theorem c9_numeric_truncation :
    (∀ s label i, parseI64 (rustTrim s) = some i → 0 < i →
      parsePositive s label = .ok (i.toNat % 2 ^ 32)) ∧
    (∀ s label i, parseI64 (rustTrim s) = some i → 0 ≤ i →
      parseNonNegative s label = .ok (i.toNat % 2 ^ 32)) ∧
    parsePositive "4294967296" "Peer limit per torrent" = .ok 0 := by
  refine ⟨?_, ?_, ?_⟩
  · intro s label i h hpos
    simp only [parsePositive, h]
    rw [if_neg (not_le.mpr hpos)]
  · intro s label i h hnonneg
    simp only [parseNonNegative, h]
    rw [if_neg (not_lt.mpr hnonneg)]
  · decide

/-- C9 witness: parse_positive accepts "4294967296" and returns Ok(0). -/
theorem c9_numeric_truncation_witness :
    parsePositive "4294967296" "Peer limit global" = .ok ((4294967296 : Int).toNat % 2 ^ 32) ∧
    ((4294967296 : Int).toNat % 2 ^ 32 = 0) :=
  ⟨c9_numeric_truncation.1 "4294967296" "Peer limit global" 4294967296 (by decide) (by decide),
   by decide⟩

/-- C7: the UpdatePreferences handler performs session_set then a
preferences fetch (session_get) in the same handler; when both succeed it
emits Preferences(Ok(refreshed)) followed by a success status event; when
either call fails it emits exactly one event, Preferences(Err), and no
status event (and a failed session_set skips the fetch). -/
theorem c7_update_preferences :
    (∀ prefs : DaemonPreferences,
      handleUpdatePreferences (.ok ()) (.ok prefs)
        = ([.preferences (.ok prefs), .status .success "Preferences updated"],
           ["session_set", "session_get"])) ∧
    (∀ (e : TransmissionError) (fetchResult : Except TransmissionError DaemonPreferences),
      handleUpdatePreferences (.error e) fetchResult
        = ([.preferences (.error e)], ["session_set"])) ∧
    (∀ e : TransmissionError,
      handleUpdatePreferences (.ok ()) (.error e)
        = ([.preferences (.error e)], ["session_set", "session_get"])) :=
  ⟨fun _ => rfl, fun _ _ => rfl, fun _ => rfl⟩

/-- C3 witness: with a daemon that answers dialect A with error -32601
and dialect B with success, a call from the A state retries once in B,
returns the B result, and flips the flag. -/
theorem c3_dialect_negotiation_witness :
    (callRaw true demoOracle "torrent_get" none).attempts
        = [(.Json, "torrent_get", none), (.Legacy, "torrent_get", none)] ∧
    (callRaw true demoOracle "torrent_get" none).result = .ok .null ∧
    (callRaw true demoOracle "torrent_get" none).useJsonRpc = false := by
  have hmain := c3_dialect_negotiation demoOracle "torrent_get" none
  have hretry := hmain.2.2.2.2.1 (.rpc (-32601) "Method not found" "") rfl (by decide)
  refine ⟨hretry.1, hretry.2, ?_⟩
  exact (hmain.2.2.2.1 true).mpr (.inr ⟨.rpc (-32601) "Method not found" "", rfl, by decide⟩)

/-- C4 witness: a 409 with token "abc123" followed by a 2xx success:
the token is stored, the identical payload is re-sent carrying it, and the
parsed body is returned. -/
theorem c4_session_handshake_witness :
    performRequest "payload" (none : Option String)
        [.conflict (some "abc123"), .success (.obj [("result", .str "success")])]
      = some (some "abc123", .ok .null,
          [("payload", none), ("payload", some "abc123")]) ∧
    (∀ q ∈ [("payload", (none : Option String)), ("payload", some "abc123")],
      q.1 = "payload") := by
  have h1 := (c4_session_handshake (α := String)).1 "payload" none "abc123"
      [.success (.obj [("result", .str "success")])]
  have h5 := (c4_session_handshake (α := String)).2.2.2.2 "payload" (some "abc123")
      (.obj [("result", .str "success")]) []
  have heq : performRequest "payload" (none : Option String)
      [.conflict (some "abc123"), .success (.obj [("result", .str "success")])]
      = some (some "abc123", handleResponseBody (.obj [("result", .str "success")]),
          [("payload", none), ("payload", some "abc123")]) := by
    rw [h1, h5]
    rfl
  have hbody : handleResponseBody (.obj [("result", .str "success")]) = .ok .null := rfl
  refine ⟨by rw [heq, hbody], ?_⟩
  intro q hq
  exact (c4_session_handshake (α := String)).2.2.1 "payload" none
    [.conflict (some "abc123"), .success (.obj [("result", .str "success")])]
    (some "abc123", .ok .null, [("payload", none), ("payload", some "abc123")])
    (by rw [heq, hbody]) q hq

lemma positionOf_lt {α : Type} {p : α → Bool} :
    ∀ {l : List α} {i : Nat}, positionOf p l = some i → i < l.length := by
  intro l
  induction l with
  | nil => intro i h; simp [positionOf] at h
  | cons a rest ih =>
    intro i h
    simp only [positionOf] at h
    split at h
    · cases h
      simp
    · rw [Option.map_eq_some'] at h
      obtain ⟨j, hj, rfl⟩ := h
      have := ih hj
      simp only [List.length_cons]
      omega

lemma inv_initial : SelectionInv initialApp := by
  refine ⟨rfl, ?_, ?_⟩ <;> simp [initialApp]

lemma rebuildFallback_inv (s1 : AppSel) (hne : s1.filteredIndices ≠ [])
    (h1 : s1.filteredIndices = filteredFor s1.snapshot s1.filterLower) :
    SelectionInv (rebuildFallback s1 s1.filteredIndices) := by
  have hpos : 0 < s1.filteredIndices.length := List.length_pos.mpr hne
  refine ⟨?_, ?_, ?_⟩
  · simpa [rebuildFallback, updateSelectedId] using h1
  · intro i hi
    simp only [rebuildFallback, updateSelectedId, Option.some.injEq] at hi
    subst hi
    simp only [rebuildFallback, updateSelectedId]
    have hmin := Nat.min_le_right (s1.listSelected.getD 0) (s1.filteredIndices.length - 1)
    omega
  · simp [rebuildFallback, updateSelectedId, hne]

lemma rebuild_establishes (s : AppSel) : SelectionInv (rebuildIndices s) := by
  simp only [rebuildIndices]
  split
  · rename_i hemp
    refine ⟨rfl, ?_, ?_⟩
    · intro i hi
      simp at hi
    · simp [List.isEmpty_iff.mp hemp]
  · rename_i hemp
    have hne : filteredFor s.snapshot s.filterLower ≠ [] := by
      intro hcontra
      rw [hcontra] at hemp
      simp at hemp
    split
    · rename_i t hfocus
      split
      · rename_i pos hfind
        exact ⟨rfl, fun i hi => by cases hi; exact positionOf_lt hfind, by simp [hne]⟩
      · exact rebuildFallback_inv
          { s with filteredIndices := filteredFor s.snapshot s.filterLower, pendingFocus := none }
          hne rfl
    · exact rebuildFallback_inv
        { s with filteredIndices := filteredFor s.snapshot s.filterLower, pendingFocus := none }
        hne rfl

lemma inv_moveSelection (delta : Int) (s : AppSel) (h : SelectionInv s) :
    SelectionInv (moveSelection delta s) := by
  obtain ⟨h1, h2, h3⟩ := h
  simp only [moveSelection]
  split
  · exact ⟨h1, h2, h3⟩
  · rename_i hemp
    have hne : s.filteredIndices ≠ [] := by
      intro hcontra
      rw [hcontra] at hemp
      simp at hemp
    have hpos : 0 < s.filteredIndices.length := List.length_pos.mpr hne
    refine ⟨?_, ?_, ?_⟩
    · simpa [updateSelectedId] using h1
    · intro i hi
      simp only [updateSelectedId, Option.some.injEq] at hi
      subst hi
      simp only [updateSelectedId]
      have hminle :
          min (max (((s.listSelected.getD 0 : Nat) : Int) + delta) 0)
              ((s.filteredIndices.length : Int) - 1)
            ≤ (s.filteredIndices.length : Int) - 1 :=
        min_le_right _ _
      omega
    · simp [updateSelectedId, hne]

lemma inv_gotoTop (s : AppSel) (h : SelectionInv s) : SelectionInv (gotoTop s) := by
  obtain ⟨h1, h2, h3⟩ := h
  simp only [gotoTop]
  split
  · exact ⟨h1, h2, h3⟩
  · rename_i hemp
    have hne : s.filteredIndices ≠ [] := by
      intro hcontra
      rw [hcontra] at hemp
      simp at hemp
    have hpos : 0 < s.filteredIndices.length := List.length_pos.mpr hne
    refine ⟨?_, ?_, ?_⟩
    · simpa [updateSelectedId] using h1
    · intro i hi
      simp only [updateSelectedId, Option.some.injEq] at hi
      subst hi
      simpa [updateSelectedId] using hpos
    · simp [updateSelectedId, hne]

lemma inv_gotoBottom (s : AppSel) (h : SelectionInv s) : SelectionInv (gotoBottom s) := by
  obtain ⟨h1, h2, h3⟩ := h
  simp only [gotoBottom]
  split
  · exact ⟨h1, h2, h3⟩
  · rename_i hemp
    have hne : s.filteredIndices ≠ [] := by
      intro hcontra
      rw [hcontra] at hemp
      simp at hemp
    have hpos : 0 < s.filteredIndices.length := List.length_pos.mpr hne
    refine ⟨?_, ?_, ?_⟩
    · simpa [updateSelectedId] using h1
    · intro i hi
      simp only [updateSelectedId, Option.some.injEq] at hi
      subst hi
      simp only [updateSelectedId]
      omega
    · simp [updateSelectedId, hne]

lemma inv_setPendingFocus (target : Option Int) (s : AppSel) (h : SelectionInv s) :
    SelectionInv (setPendingFocus target s) := by
  obtain ⟨h1, h2, h3⟩ := h
  exact ⟨h1, h2, h3⟩

lemma inv_clearFilter (s : AppSel) (h : SelectionInv s) : SelectionInv (clearFilter s) := by
  simp only [clearFilter]
  split
  · exact h
  · exact rebuild_establishes _

lemma reachable_inv {s : AppSel} (h : ReachableApp s) : SelectionInv s := by
  induction h with
  | init => exact inv_initial
  | step hr hstep ih =>
    cases hstep with
    | applyFilter v u => exact rebuild_establishes _
    | clear u => exact inv_clearFilter _ ih
    | snapshotOk snap u => exact rebuild_establishes _
    | move delta u => exact inv_moveSelection delta _ ih
    | top u => exact inv_gotoTop _ ih
    | bottom u => exact inv_gotoBottom _ ih
    | focus target u => exact inv_setPendingFocus target _ ih

lemma mem_rebuildList {torrents : List Torrent} {fl : String} {j : Nat} :
    j ∈ rebuildList torrents fl ↔
      ∃ hj : j < torrents.length, matchesFilter fl (torrents.get ⟨j, hj⟩) = true := by
  simp only [rebuildList, List.mem_filter, List.mem_range]
  constructor
  · rintro ⟨hj, hmatch⟩
    refine ⟨hj, ?_⟩
    rw [List.getElem?_eq_getElem hj] at hmatch
    exact hmatch
  · rintro ⟨hj, hmatch⟩
    refine ⟨hj, ?_⟩
    rw [List.getElem?_eq_getElem hj]
    exact hmatch

lemma pairwise_rebuildList (torrents : List Torrent) (fl : String) :
    (rebuildList torrents fl).Pairwise (fun a b => a < b) :=
  (List.pairwise_lt_range _).filter _

/-- C5: in every reachable reducer state, filtered_indices is a strictly
increasing sequence of indices into the current snapshot's torrent list
selecting exactly the torrents whose lowercased name contains the
lowercased filter (matchesFilter, which accepts everything when the filter
is empty); the selected list index, when present, is strictly below the
view length; and the selection is Some iff the filtered view is non-empty
(this holds in every reachable state, hence in particular immediately after
any filter change or snapshot application). -/
theorem c5_selection_invariants (s : AppSel) (h : ReachableApp s) :
    List.Pairwise (fun a b => a < b) s.filteredIndices ∧
    (∀ torrents, s.snapshot = some torrents →
      ∀ j, j ∈ s.filteredIndices ↔
        ∃ hj : j < torrents.length,
          matchesFilter s.filterLower (torrents.get ⟨j, hj⟩) = true) ∧
    (s.snapshot = none → s.filteredIndices = []) ∧
    (∀ i, s.listSelected = some i → i < s.filteredIndices.length) ∧
    (s.listSelected.isSome ↔ s.filteredIndices ≠ []) := by
  obtain ⟨h1, h2, h3⟩ := reachable_inv h
  refine ⟨?_, ?_, ?_, h2, h3⟩
  · rw [h1]
    cases hsnap : s.snapshot with
    | none => simp [filteredFor]
    | some torrents => simpa [filteredFor] using pairwise_rebuildList torrents s.filterLower
  · intro torrents hsnap j
    rw [h1, hsnap]
    exact mem_rebuildList
  · intro hsnap
    rw [h1, hsnap]
    rfl

/-- C5 witness: the invariants evaluated at a concrete reachable state
(snapshot of three torrents, then filter "a"). -/
theorem c5_selection_invariants_witness :
    List.Pairwise (fun a b => a < b) demoReached.filteredIndices ∧
    (∀ torrents, demoReached.snapshot = some torrents →
      ∀ j, j ∈ demoReached.filteredIndices ↔
        ∃ hj : j < torrents.length,
          matchesFilter demoReached.filterLower (torrents.get ⟨j, hj⟩) = true) ∧
    (demoReached.snapshot = none → demoReached.filteredIndices = []) ∧
    (∀ i, demoReached.listSelected = some i → i < demoReached.filteredIndices.length) ∧
    (demoReached.listSelected.isSome ↔ demoReached.filteredIndices ≠ []) :=
  c5_selection_invariants demoReached
    (ReachableApp.step
      (ReachableApp.step ReachableApp.init (AppStep.snapshotOk demoTorrents initialApp))
      (AppStep.applyFilter "a" (applySnapshotOk demoTorrents initialApp)))

/-- C1 (amended): both a filter change and a successful snapshot
application resolve the selection through rebuild_indices; a snapshot
application first seeds selected_id with pending_focus if set (clearing
it), else the previous selected_id, else the snapshot's first torrent id.
rebuild_indices then picks the target (pending_focus if set, else
selected_id); if the target id occurs in the filtered view, its position is
selected and pending_focus is cleared; otherwise - contrary to the claim -
the selection falls back to the PREVIOUS cursor position clamped to the end
of the view (position 0 only when there was no previous cursor), not to
position 0; and there is no selection iff the view is empty. -/
theorem c1_selection_resolution :
    (∀ v s, applyFilterText v s
        = rebuildIndices { s with filterText := v, filterLower := rustLowercase v }) ∧
    (∀ snap s, applySnapshotOk snap s = rebuildIndices (snapshotSeed snap s)) ∧
    (∀ snap s, (snapshotSeed snap s).selectedId
        = (match focusTarget s with
           | some t => some t
           | none => snap.head?.map (fun t => t.torrentId))) ∧
    (∀ s, filteredFor s.snapshot s.filterLower = [] →
      (rebuildIndices s).listSelected = none ∧ (rebuildIndices s).selectedId = none) ∧
    (∀ s t pos, filteredFor s.snapshot s.filterLower ≠ [] →
      focusTarget s = some t →
      findPosOfId (s.snapshot.getD []) (filteredFor s.snapshot s.filterLower) t = some pos →
      (rebuildIndices s).listSelected = some pos ∧
      (rebuildIndices s).selectedId = some t ∧
      (rebuildIndices s).pendingFocus = none) ∧
    (∀ s t, filteredFor s.snapshot s.filterLower ≠ [] →
      focusTarget s = some t →
      findPosOfId (s.snapshot.getD []) (filteredFor s.snapshot s.filterLower) t = none →
      (rebuildIndices s).listSelected
        = some (min (s.listSelected.getD 0)
            ((filteredFor s.snapshot s.filterLower).length - 1))) ∧
    (∀ s, filteredFor s.snapshot s.filterLower ≠ [] →
      focusTarget s = none →
      (rebuildIndices s).listSelected
        = some (min (s.listSelected.getD 0)
            ((filteredFor s.snapshot s.filterLower).length - 1))) := by
  refine ⟨fun v s => rfl, fun snap s => rfl, ?_, ?_, ?_, ?_, ?_⟩
  · intro snap s
    simp only [snapshotSeed]
    cases hf : focusTarget s with
    | some t => simp [hf]
    | none => simp [hf]
  · intro s hfi
    simp [rebuildIndices, hfi]
  · intro s t pos hne hfocus hfind
    simp only [rebuildIndices]
    rw [if_neg (by simpa [List.isEmpty_iff] using hne)]
    rw [hfocus]
    dsimp only
    rw [hfind]
    exact ⟨rfl, rfl, rfl⟩
  · intro s t hne hfocus hfind
    simp only [rebuildIndices]
    rw [if_neg (by simpa [List.isEmpty_iff] using hne)]
    rw [hfocus]
    dsimp only
    rw [hfind]
    rfl
  · intro s hne hfocus
    simp only [rebuildIndices]
    rw [if_neg (by simpa [List.isEmpty_iff] using hne)]
    rw [hfocus]
    rfl

/-- C1 counterexample: torrents alpha(1), beto(2), gamma(3) with beto
selected at position 1; applying filter "a" gives the view [0, 2] in which
id 2 does not occur, and the selection becomes position 1 (gamma, id 3),
not position 0 as the claim states. -/
theorem c1_counterexample :
    preFilterState.selectedId = some 2 ∧
    (applyFilterText "a" preFilterState).filteredIndices = [0, 2] ∧
    findPosOfId filterTorrents [0, 2] 2 = none ∧
    (applyFilterText "a" preFilterState).listSelected = some 1 ∧
    (applyFilterText "a" preFilterState).listSelected ≠ some 0 ∧
    (applyFilterText "a" preFilterState).selectedId = some 3 := by
  refine ⟨?_, ?_, ?_, ?_, ?_, ?_⟩ <;> decide

/-- C1 witness: the amended fallback clause evaluated on the
counterexample state. -/
theorem c1_selection_resolution_witness :
    (applyFilterText "a" preFilterState).listSelected
      = some (min (preFilterState.listSelected.getD 0)
          ((filteredFor preFilterState.snapshot "a").length - 1)) := by
  have h5 := c1_selection_resolution.2.2.2.2.2.1
      { preFilterState with filterText := "a", filterLower := "a" } 2
      (by decide) (by decide) (by decide)
  exact h5
